import Mathlib

/-!
A verification development for the experimental sled heap storage engine
(experiments/heap/src/main.rs). The Rust source is shallowly embedded:
bytes are Nat values below 256, buffers are lists of bytes, and the few
implemented operations (BufferPool::open sizing and mmap loop, Drop for
BufferPool, Page::view) are translated directly. Operations whose bodies
are todo!() in the source are modelled from the design document where a
claim requires them, and such definitions say so in their doc comment.
-/

namespace SledHeap

/-- Source line 37: pages are variable size; there are 6 size classes. -/
def SIZE_CLASSES : Nat := 6

/-- The doubling loop behind next_power_of_two: starting from acc (always
a power of two, initially 1), double until acc is at least n or the fuel
(64 on a 64-bit target, one unit per usize bit) runs out. -/
def npo2_loop (n : Nat) : Nat → Nat → Nat
  | 0, acc => acc
  | fuel + 1, acc => if n ≤ acc then acc else npo2_loop n fuel (2 * acc)

/-- Rust's usize::next_power_of_two on the 64-bit target this code is
written for, in release mode: the smallest power of two greater than or
equal to the argument (0 maps to 1), wrapping modulo 2 ^ 64 — hence to
0 — when that power overflows usize, that is, for arguments above 2 ^ 63.
Debug builds panic there instead of wrapping. -/
def next_power_of_two (n : Nat) : Nat := npo2_loop n 64 1 % 2 ^ 64

/-- Source lines 224-225 in BufferPool::open: the capacity of every
size-class region is max(64 * 1024, cache_size_in_bytes.next_power_of_two()). -/
def buffer_pool_size (cache_size_in_bytes : Nat) : Nat :=
  max (64 * 1024) (next_power_of_two cache_size_in_bytes)

/-- Source lines 245-263: the mmap loop maps one anonymous region of
buffer_pool_size bytes for each of the SIZE_CLASSES indices. The result is
the list of mapped region sizes, in mapping order. -/
def buffer_pool_regions (cache_size_in_bytes : Nat) : List Nat :=
  (List.range SIZE_CLASSES).map (fun _ => buffer_pool_size cache_size_in_bytes)

/-- Observable effects of Drop for BufferPool (source lines 278-290). -/
inductive DropAction where
  | syncLog : DropAction
  | syncHeap : DropAction
  | munmapRegion : Nat → DropAction
  | reportError : Nat → DropAction
deriving DecidableEq

/-- One iteration of the munmap loop (source lines 282-288): munmap the
region, and if the return code is nonzero, report the error to stderr and
continue. munmap_fails says which regions' munmap calls fail. -/
def region_release_actions (munmap_fails : Nat → Bool) (idx : Nat) :
    List DropAction :=
  DropAction.munmapRegion idx ::
    (if munmap_fails idx then [DropAction.reportError idx] else [])

/-- Drop for BufferPool (source lines 278-290): sync_all on the log file,
then sync_all on the heap file — both Results are discarded by the source,
so the two Bool arguments saying whether those syncs fail are ignored —
then munmap every size-class region in index order, reporting but not
propagating munmap failures. -/
def buffer_pool_drop (sync_log_fails sync_heap_fails : Bool)
    (munmap_fails : Nat → Bool) : List DropAction :=
  DropAction.syncLog :: DropAction.syncHeap ::
    (List.range SIZE_CLASSES).flatMap (region_release_actions munmap_fails)

/-- Byte i of a buffer; the source reads bytes past a checked-index region
through unsafe pointer arithmetic, which never bound-checks, so reads are
modelled as defaulting to 0 out of range. -/
def byteAt (data : List Nat) (i : Nat) : Nat := data.getD i 0

/-- Little-endian u32 from four bytes, as in u32::from_le_bytes. -/
def u32le (b0 b1 b2 b3 : Nat) : Nat :=
  b0 + 256 * b1 + 256 ^ 2 * b2 + 256 ^ 3 * b3

/-- Little-endian u64 read from eight consecutive bytes starting at off. -/
def u64leAt (data : List Nat) (off : Nat) : Nat :=
  byteAt data off + 256 * byteAt data (off + 1) + 256 ^ 2 * byteAt data (off + 2) +
    256 ^ 3 * byteAt data (off + 3) + 256 ^ 4 * byteAt data (off + 4) +
    256 ^ 5 * byteAt data (off + 5) + 256 ^ 6 * byteAt data (off + 6) +
    256 ^ 7 * byteAt data (off + 7)

/-- The decoded view of a page, mirroring struct PageView (source lines
77-85): leaf flag, child count, lo/hi boundary keys, keys and values. -/
structure PageView where
  is_leaf : Bool
  child_count : Nat
  lo : List Nat
  hi : List Nat
  keys : List (List Nat)
  values : List (List Nat)
deriving DecidableEq

namespace Page

/-- Source lines 92-94: the child count is the little-endian u32 built from
bytes 1, 2, 3 of the page and claim byte 0. -/
def child_count_of (data : List Nat) : Nat :=
  u32le (byteAt data 1) (byteAt data 2) (byteAt data 3) 0

/-- Source lines 96-101: the declared key length sum is the little-endian
u32 at bytes 4..8 of the page. -/
def key_length_sum_of (data : List Nat) : Nat :=
  u32le (byteAt data 4) (byteAt data 5) (byteAt data 6) (byteAt data 7)

/-- Source line 103: the key-length table is read starting at byte offset 5
(self.data.as_ptr().add(5)), even though the header the struct comment
describes (1 byte leaf flag + 3 bytes child count + 4 bytes key length sum)
occupies bytes 0..8. -/
def key_length_base : Nat := 5

/-- Source lines 109-111: the key-length table holds child_count + 2
little-endian u64 entries starting at key_length_base. -/
def key_lengths_of (data : List Nat) : List Nat :=
  (List.range (child_count_of data + 2)).map
    (fun i => u64leAt data (key_length_base + 8 * i))

/-- Source lines 104-105: the value-length table starts 2 * 8 + 8 *
child_count bytes after the key-length base. -/
def val_length_base (data : List Nat) : Nat :=
  key_length_base + 2 * 8 + 8 * child_count_of data

/-- Source lines 113-115: the value-length table holds child_count
little-endian u64 entries starting at val_length_base. -/
def val_lengths_of (data : List Nat) : List Nat :=
  (List.range (child_count_of data)).map
    (fun i => u64leAt data (val_length_base data + 8 * i))

/-- Source line 117: lo_len is key_lengths[0] — read at byte offset 5. -/
def lo_len_of (data : List Nat) : Nat := (key_lengths_of data).getD 0 0

/-- Source line 118: hi_len is key_lengths[1] — read at byte offset 13. -/
def hi_len_of (data : List Nat) : Nat := (key_lengths_of data).getD 1 0

/-- Page::view (source lines 88-126), translated as written. The checked
indexing of bytes 0..8 panics on a shorter buffer (modelled as none).
Otherwise the leaf flag is the whole of byte 0 compared against 0, the
child count comes from bytes 1..4, the length tables are read through
unchecked pointers (and then discarded), and the returned lo, hi, keys and
values are the empty slices hardcoded at source lines 120-123. -/
def view (data : List Nat) : Option PageView :=
  if data.length < 8 then none
  else
    some
      { is_leaf := byteAt data 0 == 0
        child_count := child_count_of data
        lo := []
        hi := []
        keys := []
        values := [] }

end Page

/-- enum PageUpdate (source lines 171-174): a key set to a value, or a key
deleted. Keys and values are byte strings. -/
inductive PageUpdate where
  | set : List Nat → List Nat → PageUpdate
  | del : List Nat → PageUpdate
deriving DecidableEq

/-- enum LogRecord (source lines 176-189): an Update carries lsn, tx, pid,
redo and undo payloads and the previous lsn of its chain; a Commit carries
tx and last_lsn. -/
inductive LogRecord where
  | update : Nat → Nat → Nat → PageUpdate → PageUpdate → Nat → LogRecord
  | commit : Nat → Nat → LogRecord
deriving DecidableEq

/-- A page's logical content for replay purposes: an association list from
keys to values, most recent binding first. -/
abbrev PageContent : Type := List (List Nat × List Nat)

/-- Applying one PageUpdate to a page's content: set replaces any binding
of the key, del removes it. -/
def apply_update (u : PageUpdate) (p : PageContent) : PageContent :=
  match u with
  | PageUpdate.set k v => (k, v) :: p.filter (fun e => decide (e.1 ≠ k))
  | PageUpdate.del k => p.filter (fun e => decide (e.1 ≠ k))

/-- The heap store as a map from page id to page content. -/
abbrev HeapState : Type := Nat → PageContent

/-- Point update of a heap state. -/
def heap_set (h : HeapState) (pid : Nat) (p : PageContent) : HeapState :=
  fun q => if q = pid then p else h q

/-- BufferPool::open's treatment of the heap on startup (source lines
223-275): the log replay step is a disabled TODO comment (source line 243:
"TODO todo!(replay the log into the heap)"), so open performs no replay at
all and the heap is exactly what was found on disk, whatever the log
contains. -/
def open_replayed_heap (log : List LogRecord) (h : HeapState) : HeapState := h

/-- BufferPool::open's initialization of next_tx (source line 266): the
constant 0, regardless of the log's contents (the log scan is a disabled
TODO at source line 234). -/
def open_next_tx (log : List LogRecord) : Nat := 0

/-- BufferPool::open's initialization of next_page (source line 267): the
constant 0, regardless of the stores' contents. -/
def open_next_page (log : List LogRecord) : Nat := 0

/-- Whether the log contains a Commit record for transaction tx. -/
def tx_committed (log : List LogRecord) (tx : Nat) : Bool :=
  log.any fun r =>
    match r with
    | LogRecord.commit t _ => t == tx
    | _ => false

/-- Modelled from the spec: the reference post-recovery heap — apply, in
log order, the redo payload of every Update record whose transaction has a
Commit record in the log, and nothing from uncommitted transactions. -/
def committed_redo_heap (log : List LogRecord) (h : HeapState) : HeapState :=
  log.foldl
    (fun acc r =>
      match r with
      | LogRecord.update _ tx pid redo _ _ =>
          if tx_committed log tx then heap_set acc pid (apply_update redo (acc pid))
          else acc
      | LogRecord.commit _ _ => acc)
    h

/-- The transaction id carried by a log record. -/
def record_tx (r : LogRecord) : Nat :=
  match r with
  | LogRecord.update _ tx _ _ _ _ => tx
  | LogRecord.commit tx _ => tx

/-- Modelled from the spec: the next-transaction-id counter recovered by
scanning the log on open — one more than the largest transaction id the
log mentions (0 for an empty log). The source's scan is missing (TODO at
source line 234). -/
def recovered_next_tx (log : List LogRecord) : Nat :=
  (log.map record_tx).foldl max 0 + 1

/-- A concrete log with a single committed transaction: transaction 1
sets key "a" (byte 97) to "a" on page 0 and commits. -/
def log_one_commit : List LogRecord :=
  [LogRecord.update 1 1 0 (PageUpdate.set [97] [97]) (PageUpdate.del [97]) 0,
   LogRecord.commit 1 1]

/-- A concrete log mentioning transaction 5: one committed update. -/
def log_tx_five : List LogRecord :=
  [LogRecord.update 1 5 0 (PageUpdate.set [97] [97]) (PageUpdate.del [97]) 0,
   LogRecord.commit 5 1]

/-- The empty heap: every page has no bindings. -/
def empty_heap : HeapState := fun _ => []

/-- Modelled from the spec: Page::insert, and with it the whole split path,
is todo!() in the source (lines 163-165), so a page is modelled abstractly
for the split claim as its lo/hi boundary keys and its list of contained
keys, over any linearly ordered key type. -/
structure SpecPage (α : Type) where
  lo : α
  hi : α
  keys : List α

/-- Modelled from the spec: the separator chosen by a split is the median
key of the page (entries are split at the median; the page's hi boundary is
the fallback for an empty page). -/
def split_separator {α : Type} [LinearOrder α] (p : SpecPage α) : α :=
  p.keys.getD (p.keys.length / 2) p.hi

/-- Modelled from the spec: the left page a split produces — the original
lo boundary, the separator as its new hi boundary, and every key strictly
below the separator. -/
def split_left {α : Type} [LinearOrder α] (p : SpecPage α) : SpecPage α :=
  { lo := p.lo
    hi := split_separator p
    keys := p.keys.filter (fun k => decide (k < split_separator p)) }

/-- Modelled from the spec: the right page a split produces — the separator
as its lo boundary (a duplicate median is pushed into the right sibling and
becomes its low boundary), the original hi boundary, and every key greater
than or equal to the separator. -/
def split_right {α : Type} [LinearOrder α] (p : SpecPage α) : SpecPage α :=
  { lo := split_separator p
    hi := p.hi
    keys := p.keys.filter (fun k => decide (split_separator p ≤ k)) }

/-- The eight little-endian bytes of a u64 value, for building buffers. -/
def le64 (n : Nat) : List Nat :=
  [n % 256, n / 256 % 256, n / 256 ^ 2 % 256, n / 256 ^ 3 % 256,
   n / 256 ^ 4 % 256, n / 256 ^ 5 % 256, n / 256 ^ 6 % 256, n / 256 ^ 7 % 256]

/-- A well-formed leaf page buffer laid out per the source's struct comment
(source lines 68-74): byte 0 = 0 (leaf), bytes 1..4 = child count 1, bytes
4..8 = key length sum 3, then at offset 8 three u64 key lengths (lo, hi,
one key, each of length 1), at offset 32 one u64 value length 1, then key
bytes "a" "c" "b" and value byte 7. -/
def page_ex : List Nat :=
  [0, 1, 0, 0, 3, 0, 0, 0] ++ le64 1 ++ le64 1 ++ le64 1 ++ le64 1 ++
    [97, 99, 98, 7]

/-- An 8-byte buffer whose byte 0 is 0: every bit of byte 0 is clear. -/
def page_byte0_zero : List Nat := 0 :: List.replicate 7 0

/-- An 8-byte buffer whose byte 0 is 2: bit 0 of byte 0 is clear, exactly
as in page_byte0_zero, but the byte as a whole is nonzero. -/
def page_byte0_two : List Nat := 2 :: List.replicate 7 0

/-- A 16-byte buffer declaring one child and a key length sum of 65535,
far beyond the buffer's 16 bytes. -/
def page_overlong : List Nat :=
  [0, 1, 0, 0, 255, 255, 0, 0] ++ le64 0

theorem munmap_mem_releases (mf : Nat → Bool) (n i : Nat) (h : i < n) :
    DropAction.munmapRegion i ∈ (List.range n).flatMap (region_release_actions mf) := by
  refine List.mem_flatMap.mpr ⟨i, List.mem_range.mpr h, ?_⟩
  exact List.mem_cons_self _ _

theorem report_mem_releases (mf : Nat → Bool) (n i : Nat) :
    DropAction.reportError i ∈ (List.range n).flatMap (region_release_actions mf) ↔
      i < n ∧ mf i = true := by
  constructor
  · intro hmem
    rcases List.mem_flatMap.mp hmem with ⟨a, ha, hin⟩
    rcases List.mem_cons.mp hin with hc | hc
    · cases hc
    · by_cases hma : mf a = true
      · rw [if_pos hma] at hc
        have heq : i = a := by
          have h2 := List.mem_singleton.mp hc
          injection h2
        subst heq
        exact ⟨List.mem_range.mp ha, hma⟩
      · rw [if_neg hma] at hc
        cases hc
  · rintro ⟨hlt, hmf⟩
    refine List.mem_flatMap.mpr ⟨i, List.mem_range.mpr hlt, ?_⟩
    show DropAction.reportError i ∈ DropAction.munmapRegion i ::
      (if mf i = true then [DropAction.reportError i] else [])
    rw [if_pos hmf]
    exact List.mem_cons.mpr (Or.inr (List.mem_singleton.mpr rfl))

theorem npo2_loop_pow (n fuel : Nat) :
    ∀ j, ∃ m, npo2_loop n fuel (2 ^ j) = 2 ^ m := by
  induction fuel with
  | zero => exact fun j => ⟨j, rfl⟩
  | succ f ih =>
    intro j
    by_cases hle : n ≤ 2 ^ j
    · refine ⟨j, ?_⟩
      show (if n ≤ 2 ^ j then 2 ^ j else npo2_loop n f (2 * 2 ^ j)) = 2 ^ j
      rw [if_pos hle]
    · obtain ⟨m, hm⟩ := ih (j + 1)
      refine ⟨m, ?_⟩
      show (if n ≤ 2 ^ j then 2 ^ j else npo2_loop n f (2 * 2 ^ j)) = 2 ^ m
      rw [if_neg hle, show 2 * 2 ^ j = 2 ^ (j + 1) by rw [pow_succ, Nat.mul_comm]]
      exact hm

theorem npo2_loop_ge (n fuel : Nat) :
    ∀ j, n ≤ 2 ^ (fuel + j) → n ≤ npo2_loop n fuel (2 ^ j) := by
  induction fuel with
  | zero =>
    intro j h
    show n ≤ 2 ^ j
    simpa using h
  | succ f ih =>
    intro j h
    show n ≤ (if n ≤ 2 ^ j then 2 ^ j else npo2_loop n f (2 * 2 ^ j))
    by_cases hle : n ≤ 2 ^ j
    · rw [if_pos hle]
      exact hle
    · rw [if_neg hle, show 2 * 2 ^ j = 2 ^ (j + 1) by rw [pow_succ, Nat.mul_comm]]
      refine ih (j + 1) ?_
      rw [show f + (j + 1) = f + 1 + j by omega]
      exact h

theorem npo2_loop_min (n fuel m : Nat) (hn : n ≤ 2 ^ m) :
    ∀ j, j ≤ m → npo2_loop n fuel (2 ^ j) ≤ 2 ^ m := by
  induction fuel with
  | zero =>
    intro j hj
    show 2 ^ j ≤ 2 ^ m
    exact Nat.pow_le_pow_right (by norm_num) hj
  | succ f ih =>
    intro j hj
    show (if n ≤ 2 ^ j then 2 ^ j else npo2_loop n f (2 * 2 ^ j)) ≤ 2 ^ m
    by_cases hle : n ≤ 2 ^ j
    · rw [if_pos hle]
      exact Nat.pow_le_pow_right (by norm_num) hj
    · rw [if_neg hle, show 2 * 2 ^ j = 2 ^ (j + 1) by rw [pow_succ, Nat.mul_comm]]
      push_neg at hle
      have hjm : j < m :=
        (Nat.pow_lt_pow_iff_right (by norm_num)).mp (lt_of_lt_of_le hle hn)
      exact ih (j + 1) hjm

/-- Claim C4 as stated is false: at the valid usize argument 2 ^ 64 - 1,
release-mode next_power_of_two wraps to 0, so BufferPool::open computes a
capacity of 65536 — smaller than the requested budget, hence not the
next power of two of the budget. -/
theorem buffer_pool_size_overflow_wraps :
    next_power_of_two (2 ^ 64 - 1) = 0 ∧
    buffer_pool_size (2 ^ 64 - 1) = 65536 ∧
    buffer_pool_size (2 ^ 64 - 1) < 2 ^ 64 - 1 := by
  decide

/-- Claim C4, amended for overflow: for every cache_size_in_bytes up to
2 ^ 63, BufferPool::open sets each size-class region's capacity to
max(65536, next_power_of_two cache_size_in_bytes): at least 64 KiB, at
least the requested budget, and next_power_of_two is the least power of
two at or above the budget. (Above 2 ^ 63 the release-mode computation
wraps to 0 and the capacity is 65536.) -/
theorem open_buffer_pool_size_amended (c : Nat) (h : c ≤ 2 ^ 63) :
    buffer_pool_size c = max 65536 (next_power_of_two c) ∧
    65536 ≤ buffer_pool_size c ∧
    c ≤ buffer_pool_size c ∧
    (∃ k, next_power_of_two c = 2 ^ k) ∧
    (∀ m, c ≤ 2 ^ m → next_power_of_two c ≤ 2 ^ m) := by
  have hloop_le : npo2_loop c 64 (2 ^ 0) ≤ 2 ^ 63 :=
    npo2_loop_min c 64 63 h 0 (by norm_num)
  have hmod : next_power_of_two c = npo2_loop c 64 1 := by
    show npo2_loop c 64 1 % 2 ^ 64 = npo2_loop c 64 1
    refine Nat.mod_eq_of_lt (lt_of_le_of_lt ?_ (by norm_num : (2:Nat) ^ 63 < 2 ^ 64))
    simpa using hloop_le
  refine ⟨rfl, le_max_left _ _, ?_, ?_, ?_⟩
  · show c ≤ max (64 * 1024) (next_power_of_two c)
    refine le_trans ?_ (le_max_right _ _)
    rw [hmod]
    have h0 : c ≤ 2 ^ (64 + 0) := le_trans h (by norm_num)
    simpa using npo2_loop_ge c 64 0 h0
  · obtain ⟨k, hk⟩ := npo2_loop_pow c 64 0
    refine ⟨k, ?_⟩
    rw [hmod]
    simpa using hk
  · intro m hm
    rw [hmod]
    simpa using npo2_loop_min c 64 m hm 0 (Nat.zero_le m)

theorem open_buffer_pool_size_amended_witness :
    buffer_pool_size 100000 = max 65536 (next_power_of_two 100000) ∧
    100000 ≤ buffer_pool_size 100000 ∧
    next_power_of_two 100000 ≤ 2 ^ 17 := by
  have h := open_buffer_pool_size_amended 100000 (by norm_num)
  exact ⟨h.1, h.2.2.1, h.2.2.2.2 17 (by norm_num)⟩

/-- Claim C9: open maps exactly SIZE_CLASSES = 6 anonymous regions, all of
the same capacity buffer_pool_size c, so the total reserved is six times
that capacity rather than a partition of the requested budget. -/
theorem open_maps_six_equal_regions (c : Nat) :
    (buffer_pool_regions c).length = SIZE_CLASSES ∧
    SIZE_CLASSES = 6 ∧
    (∀ s ∈ buffer_pool_regions c, s = buffer_pool_size c) ∧
    (buffer_pool_regions c).sum = SIZE_CLASSES * buffer_pool_size c := by
  refine ⟨by simp [buffer_pool_regions], rfl, ?_, ?_⟩
  · intro s hs
    rcases List.mem_map.mp hs with ⟨a, _, rfl⟩
    rfl
  · have hrep : buffer_pool_regions c = List.replicate 6 (buffer_pool_size c) := by
      simp [buffer_pool_regions, SIZE_CLASSES, List.map_const']
    rw [hrep, List.sum_replicate, smul_eq_mul, SIZE_CLASSES]

theorem open_maps_six_equal_regions_witness :
    (65536 : Nat) = buffer_pool_size 0 := by
  have hval : buffer_pool_size 0 = 65536 := by decide
  refine (open_maps_six_equal_regions 0).2.2.1 65536 ?_
  rw [← hval]
  exact List.mem_map.mpr ⟨0, by decide, rfl⟩

/-- Claim C5: on shutdown, Drop for BufferPool forces the log store and the
heap store to durable storage before releasing any size-class region, then
releases every one of the SIZE_CLASSES regions, and a munmap failure is
reported for exactly the failing regions without aborting the remaining
releases or failing the shutdown. -/
theorem drop_syncs_then_releases_all (sl sh : Bool) (mf : Nat → Bool) :
    (buffer_pool_drop sl sh mf).take 2 =
      [DropAction.syncLog, DropAction.syncHeap] ∧
    (∀ i : Fin SIZE_CLASSES,
      DropAction.munmapRegion i.val ∈ buffer_pool_drop sl sh mf) ∧
    (∀ i : Fin SIZE_CLASSES,
      (DropAction.reportError i.val ∈ buffer_pool_drop sl sh mf ↔
        mf i.val = true)) := by
  refine ⟨rfl, ?_, ?_⟩
  · intro i
    exact List.mem_cons.mpr (Or.inr (List.mem_cons.mpr
      (Or.inr (munmap_mem_releases mf _ i.val i.isLt))))
  · intro i
    constructor
    · intro hmem
      rcases List.mem_cons.mp hmem with h | h
      · cases h
      rcases List.mem_cons.mp h with h2 | h2
      · cases h2
      exact ((report_mem_releases mf _ i.val).mp h2).2
    · intro hmf
      exact List.mem_cons.mpr (Or.inr (List.mem_cons.mpr
        (Or.inr ((report_mem_releases mf _ i.val).mpr ⟨i.isLt, hmf⟩))))

theorem drop_syncs_then_releases_all_witness :
    DropAction.reportError 3 ∈
      buffer_pool_drop true true (fun i => decide (i = 3)) ∧
    DropAction.munmapRegion 5 ∈
      buffer_pool_drop true true (fun i => decide (i = 3)) := by
  have h := drop_syncs_then_releases_all true true (fun i => decide (i = 3))
  exact ⟨(h.2.2 ⟨3, by decide⟩).mpr (by decide), h.2.1 ⟨5, by decide⟩⟩

/-- Claim C10: the Results of sync_all on the log and heap stores are
discarded by Drop for BufferPool — the emitted shutdown behavior is
identical whether or not either sync fails, every region is still
released, and error reports are issued only for munmap failures. -/
theorem drop_discards_sync_failures (sl sl2 sh sh2 : Bool) (mf : Nat → Bool) :
    buffer_pool_drop sl sh mf = buffer_pool_drop sl2 sh2 mf ∧
    (∀ i : Fin SIZE_CLASSES,
      DropAction.munmapRegion i.val ∈ buffer_pool_drop sl sh mf) ∧
    (∀ i, DropAction.reportError i ∈ buffer_pool_drop sl sh mf →
      mf i = true) := by
  refine ⟨rfl, ?_, ?_⟩
  · intro i
    exact List.mem_cons.mpr (Or.inr (List.mem_cons.mpr
      (Or.inr (munmap_mem_releases mf _ i.val i.isLt))))
  · intro i hmem
    rcases List.mem_cons.mp hmem with h | h
    · cases h
    rcases List.mem_cons.mp h with h2 | h2
    · cases h2
    exact ((report_mem_releases mf _ i).mp h2).2

theorem drop_discards_sync_failures_witness :
    buffer_pool_drop true false (fun i => decide (i = 2)) =
      buffer_pool_drop false true (fun i => decide (i = 2)) ∧
    decide (2 = 2) = true := by
  have h := drop_discards_sync_failures true false false true
    (fun i => decide (i = 2))
  exact ⟨h.1, h.2.2 2 (by decide)⟩

/-- Claim C1 is refuted by the code as written: BufferPool::open performs
no log replay at all (the redo and undo phases are disabled TODO comments,
source lines 234 and 243). On the concrete log holding one committed
transaction that sets key 97 to value 97 on page 0, open leaves page 0
empty, while the state the claim requires — every committed transaction's
redo applied, uncommitted ones dropped — binds key 97 on page 0. -/
theorem open_recovery_missing :
    open_replayed_heap log_one_commit empty_heap 0 = [] ∧
    committed_redo_heap log_one_commit empty_heap 0 = [([97], [97])] ∧
    open_replayed_heap log_one_commit empty_heap 0 ≠
      committed_redo_heap log_one_commit empty_heap 0 := by
  refine ⟨rfl, by decide, by decide⟩

/-- Claim C8 is refuted by the code as written: BufferPool::open hardcodes
next_tx = 0 and next_page = 0 (source lines 266-267) instead of scanning
the stores. On the concrete log whose largest transaction id is 5, a
recovering scan yields next transaction id 6, but open still returns 0. -/
theorem open_counters_hardcoded :
    open_next_tx log_tx_five = 0 ∧
    open_next_page log_tx_five = 0 ∧
    recovered_next_tx log_tx_five = 6 ∧
    open_next_tx log_tx_five ≠ recovered_next_tx log_tx_five := by
  refine ⟨rfl, rfl, by decide, by decide⟩

/-- Claim C2 is refuted by the code as written: Page::view derives the
leaf flag from the whole of byte 0 being zero (buffers with byte 0 equal
to 0 and to 2 agree on bit 0 yet decode to different leaf flags), reads
the key-length table at byte offset 5 rather than 8 (on page_ex the first
entry decodes as 16777216 while the entry laid out at offset 8 is 1), and
returns hardcoded empty lo/hi/keys/values no matter what the buffer holds. -/
theorem view_layout_divergences :
    (Page.view page_byte0_zero).map PageView.is_leaf = some true ∧
    (Page.view page_byte0_two).map PageView.is_leaf = some false ∧
    Page.key_length_base = 5 ∧
    Page.lo_len_of page_ex = 16777216 ∧
    u64leAt page_ex 8 = 1 ∧
    Page.child_count_of page_ex = 1 ∧
    (Page.view page_ex).map PageView.keys = some [] ∧
    (Page.view page_ex).map PageView.values = some [] ∧
    (Page.view page_ex).map PageView.lo = some [] ∧
    (Page.view page_ex).map PageView.hi = some [] := by
  decide

/-- Claim C3 is refuted by the code as written: Page::view has no error
path for declared lengths — on page_overlong, whose header declares a key
length sum of 65535 against a 16-byte buffer, view still succeeds and
returns a PageView instead of failing with a corruption error. -/
theorem view_no_corruption_error :
    Page.view page_overlong =
      some (PageView.mk true 1 [] [] [] []) ∧
    page_overlong.length = 16 ∧
    Page.key_length_sum_of page_overlong = 65535 ∧
    page_overlong.length < Page.key_length_sum_of page_overlong := by
  decide

/-- Claim C7 is refuted by the code as written: a decoded view carries the
hardcoded empty keys and values arrays, so the decoded length entries sum
to 0 regardless of the header's declared totals — on the well-formed
encoded page page_ex the header declares a key length sum of 3, but the
decoded sums are 0 (and no encode exists in the source at all). -/
theorem decoded_length_sums_zero :
    Page.key_length_sum_of page_ex = 3 ∧
    (Page.view page_ex).map (fun v => (v.keys.map List.length).sum) = some 0 ∧
    (Page.view page_ex).map (fun v => (v.values.map List.length).sum) = some 0 ∧
    (Page.view page_ex).map (fun v => (v.keys.map List.length).sum) ≠
      some (Page.key_length_sum_of page_ex) := by
  decide

theorem split_right_keys_filter_not {α : Type} [LinearOrder α]
    (p : SpecPage α) :
    (split_right p).keys =
      p.keys.filter (fun k => !decide (k < split_separator p)) := by
  refine List.filter_congr ?_
  intro k _
  rw [← decide_not]
  exact decide_eq_decide.mpr not_lt.symm

/-- Claim C6: after a split, the left page's high boundary equals the
right page's low boundary equals the separator; every original key below
the separator is in the left page and every key at or above it (a
duplicate median included) is in the right page; the left and right keys
together are a permutation of the original keys. The split path is
todo!() in the source, so split_left, split_right and split_separator are
modelled from the spec. -/
theorem split_boundary_properties {α : Type} [LinearOrder α] (p : SpecPage α) :
    (split_left p).hi = split_separator p ∧
    (split_right p).lo = split_separator p ∧
    (split_left p).lo = p.lo ∧
    (split_right p).hi = p.hi ∧
    (∀ k ∈ p.keys, k < split_separator p → k ∈ (split_left p).keys) ∧
    (∀ k ∈ p.keys, split_separator p ≤ k → k ∈ (split_right p).keys) ∧
    (∀ k ∈ (split_left p).keys, k < split_separator p) ∧
    (∀ k ∈ (split_right p).keys, split_separator p ≤ k) ∧
    ((split_left p).keys ++ (split_right p).keys).Perm p.keys := by
  refine ⟨rfl, rfl, rfl, rfl, ?_, ?_, ?_, ?_, ?_⟩
  · intro k hk hlt
    exact List.mem_filter.mpr ⟨hk, decide_eq_true hlt⟩
  · intro k hk hle
    exact List.mem_filter.mpr ⟨hk, decide_eq_true hle⟩
  · intro k hk
    exact of_decide_eq_true (List.mem_filter.mp hk).2
  · intro k hk
    exact of_decide_eq_true (List.mem_filter.mp hk).2
  · rw [split_right_keys_filter_not]
    exact List.filter_append_perm _ p.keys

theorem split_boundary_properties_witness :
    split_separator (SpecPage.mk 0 10 [1, 2, 3, 4] : SpecPage Nat) = 3 ∧
    (2 : Nat) ∈ (split_left (SpecPage.mk 0 10 [1, 2, 3, 4] : SpecPage Nat)).keys ∧
    (3 : Nat) ∈ (split_right (SpecPage.mk 0 10 [1, 2, 3, 4] : SpecPage Nat)).keys := by
  have h := split_boundary_properties (SpecPage.mk 0 10 [1, 2, 3, 4] : SpecPage Nat)
  exact ⟨by decide, h.2.2.2.2.1 2 (by decide) (by decide),
    h.2.2.2.2.2.1 3 (by decide) (by decide)⟩

end SledHeap
